import Mathlib

/-!
Shallow embedding of the grainlify bounty-escrow engine.

The repository ships the contract's tests, fuzz targets and trait
interfaces under `src/` (`src/contracts/interfaces/src/lib.rs`,
`src/contracts/bounty_escrow/contracts/escrow/...`), while the contract
implementation itself (the `bounty_escrow` crate's `lib.rs`, the
`security/reentrancy_guard` module and the anti-abuse limiter) is not part
of the staged files.  The operations below are therefore modelled from the
spec (sections 3 to 7 and the design notes), with type names and entry
point names taken from the interface crate and the test files.  Identities
(Soroban `Address`) are modelled as `Nat`; `u64` ids and timestamps as
`Nat`; `i128` token quantities as `Int` (the spec treats them as
high-precision integers); fallible entry points return `Except`.
-/

namespace Grainlify

/-- Account / actor identities (Soroban `Address`), modelled as `Nat`. -/
abbrev Addr := Nat

/-- Modelled from the spec: status enum of an `EscrowRecord` (section 3);
the names also appear in the fuzz targets as `bounty_escrow.EscrowStatus`. -/
inductive EscrowStatus
  | Locked
  | Released
  | PartiallyRefunded
  | Refunded
deriving DecidableEq, Repr

/-- Refund modes, from `src/contracts/interfaces/src/lib.rs` (`RefundMode`). -/
inductive RefundMode
  | Full
  | Partial
  | Custom
deriving DecidableEq, Repr

/-- Modelled from the spec: the categorical error outcomes of section 7. -/
inductive Err
  | ReentrantCall
  | RateLimited
  | AlreadyLocked
  | BountyNotFound
  | InvalidState
  | InvalidAmount
  | InvalidDeadline
  | DeadlineNotPassed
  | RefundNotApproved
  | MissingParameter
  | InsufficientBalance
  | AuthorizationFailed
  | EmptyBatch
  | DuplicateBountyId
  | TransferFailed
deriving DecidableEq, Repr

/-- Modelled from the spec: `EscrowRecord` (section 3), keyed by `bounty_id`. -/
structure EscrowRecord where
  depositor : Addr
  amount : Int
  remaining_amount : Int
  status : EscrowStatus
  deadline : Nat
  created_at : Nat
deriving DecidableEq, Repr

/-- Modelled from the spec: `RefundHistoryEntry` (section 3). -/
structure RefundHistoryEntry where
  mode : RefundMode
  amount : Int
  recipient : Addr
  timestamp : Nat
deriving DecidableEq, Repr

/-- Modelled from the spec: the global anti-abuse parameters (section 3). -/
structure AbuseConfig where
  window_length : Nat
  max_ops_per_window : Nat
  cooldown_duration : Nat
deriving DecidableEq, Repr

/-- Modelled from the spec: per-actor anti-abuse counters (section 3). -/
structure AbuseState where
  last_op_time : Nat
  op_count_in_window : Nat
deriving DecidableEq, Repr

/-- Batch lock item, named `LockFundsItem` in the bounty escrow tests and
fuzz targets; fields per the spec's `LockItem` (section 3). -/
structure LockFundsItem where
  bounty_id : Nat
  depositor : Addr
  amount : Int
  deadline : Nat
deriving DecidableEq, Repr

/-- Batch release item, named `ReleaseFundsItem` in the tests; fields per
the spec's `ReleaseItem` (section 3) and the fuzz target's construction. -/
structure ReleaseFundsItem where
  bounty_id : Nat
  contributor : Addr
deriving DecidableEq, Repr

/-- Modelled from the spec: the contract's persistent storage plus the token
collaborator's balances and the ledger clock (sections 3, 5, 6).  The
contract's custody balance is a separate field, so the token collaborator's
debits and credits are explicit. -/
structure ContractState where
  records : Nat → Option EscrowRecord
  history : Nat → List RefundHistoryEntry
  balances : Addr → Int
  contractBalance : Int
  flag : Bool
  abuse : Addr → AbuseState
  whitelist : List Addr
  config : AbuseConfig
  refund_approved : Nat → Bool
  now : Nat

/-- Modelled from the spec: `enter()` fails with `ReentrantCall` if the flag
is already set, otherwise sets it and succeeds (section 4.1). -/
def ReentrancyGuard.enter (flag : Bool) : Except Err Bool :=
  if flag then .error .ReentrantCall else .ok true

/-- Modelled from the spec: `exit()` unconditionally clears the flag
(section 4.1). -/
def ReentrancyGuard.exit (_flag : Bool) : Bool := false

/-- Modelled from the spec: scoped acquisition (`ReentrancyGuardRAII::new`
in the grainlify-core tests): on success the flag is set and a guard value
exists; a failed acquisition constructs no guard and leaves the flag as it
was. -/
def ReentrancyGuardRAII.new (flag : Bool) : Except Err Unit × Bool :=
  match ReentrancyGuard.enter flag with
  | .ok f => (.ok (), f)
  | .error e => (.error e, flag)

/-- Modelled from the spec: the scoped-acquisition wrapper around every
mutating entry point (sections 4.1 and 5): acquire the guard, run the body,
and clear the flag on every exit path; an error anywhere aborts and reverts
every storage write of the invocation, so the caller's state on failure is
the pre-call state. -/
def withGuard (body : ContractState → Except Err ContractState)
    (st : ContractState) : Except Err Unit × ContractState :=
  match ReentrancyGuard.enter st.flag with
  | .error _ => (.error .ReentrantCall, st)
  | .ok f =>
    match body { st with flag := f } with
    | .ok st' => (.ok (), { st' with flag := ReentrancyGuard.exit st'.flag })
    | .error e => (.error e, st)

/-- Modelled from the spec: one step of the sliding-window limiter for one
actor (section 4.2): reset the window when `now - last_op_time` is strictly
greater than `window_length`; rate-limit when the in-window count has
reached `max_ops_per_window` and `now - last_op_time < cooldown_duration`;
otherwise increment the count and stamp `last_op_time`. -/
def abuseStep (cfg : AbuseConfig) (s : AbuseState) (now : Nat) :
    Except Err AbuseState :=
  let count := if cfg.window_length < now - s.last_op_time then 0
    else s.op_count_in_window
  if cfg.max_ops_per_window ≤ count ∧
      now - s.last_op_time < cfg.cooldown_duration then
    .error .RateLimited
  else
    .ok ⟨now, count + 1⟩

/-- A sequence of limiter steps for one actor at the given timestamps,
stopping at the first rate-limited operation. -/
def runAbuse (cfg : AbuseConfig) (s : AbuseState) : List Nat → Except Err AbuseState
  | [] => .ok s
  | t :: ts =>
    match abuseStep cfg s t with
    | .ok s' => runAbuse cfg s' ts
    | .error e => .error e

/-- Modelled from the spec: `check_and_record(actor, now)` (section 4.2):
a whitelisted actor always passes without mutating counters; otherwise one
`abuseStep` is applied to the actor's entry of the per-actor map. -/
def check_and_record (cfg : AbuseConfig) (wl : List Addr)
    (ab : Addr → AbuseState) (actor : Addr) (now : Nat) :
    Except Err (Addr → AbuseState) :=
  if actor ∈ wl then .ok ab
  else
    match abuseStep cfg (ab actor) now with
    | .ok s' => .ok (fun a => if a = actor then s' else ab a)
    | .error e => .error e

/-- Modelled from the spec: the single-item lock preconditions (section
4.3) in the listed order: no existing record (`AlreadyLocked`), positive
amount (`InvalidAmount`), deadline strictly in the future
(`InvalidDeadline`), sufficient depositor balance (`InsufficientBalance`).
Depositor authorization is presented by the caller and is modelled as
always granted (the tests run with `mock_all_auths`). -/
def lockItemErr (st : ContractState) (it : LockFundsItem) : Option Err :=
  if (st.records it.bounty_id).isSome then some .AlreadyLocked
  else if it.amount ≤ 0 then some .InvalidAmount
  else if it.deadline ≤ st.now then some .InvalidDeadline
  else if st.balances it.depositor < it.amount then some .InsufficientBalance
  else none

/-- Modelled from the spec: the lock effect (section 4.3): move `amount`
from the depositor to the contract's custody and create the record
`{Locked, amount, remaining_amount = amount, deadline, created_at = now}`. -/
def applyLock (st : ContractState) (it : LockFundsItem) : ContractState :=
  { st with
    balances := fun a =>
      if a = it.depositor then st.balances a - it.amount else st.balances a
    contractBalance := st.contractBalance + it.amount
    records := fun i =>
      if i = it.bounty_id then
        some ⟨it.depositor, it.amount, it.amount, .Locked, it.deadline, st.now⟩
      else st.records i }

/-- Modelled from the spec: the body of `lock_funds` (sections 2 and 4.3):
consult the limiter keyed by the depositor, validate, then transfer and
create the record. -/
def lockBody (depositor : Addr) (bounty_id : Nat) (amount : Int)
    (deadline : Nat) (st : ContractState) : Except Err ContractState :=
  match check_and_record st.config st.whitelist st.abuse depositor st.now with
  | .error e => .error e
  | .ok ab' =>
    match lockItemErr st ⟨bounty_id, depositor, amount, deadline⟩ with
    | some e => .error e
    | none =>
      .ok (applyLock { st with abuse := ab' }
        ⟨bounty_id, depositor, amount, deadline⟩)

/-- Modelled from the spec: the release effect (section 4.4): transfer
`remaining_amount` to the recipient, set `status = Released` and
`remaining_amount = 0`. -/
def applyRelease (st : ContractState) (bounty_id : Nat) (recipient : Addr)
    (r : EscrowRecord) : ContractState :=
  { st with
    contractBalance := st.contractBalance - r.remaining_amount
    balances := fun a =>
      if a = recipient then st.balances a + r.remaining_amount
      else st.balances a
    records := fun i =>
      if i = bounty_id then
        some { r with status := .Released, remaining_amount := 0 }
      else st.records i }

/-- Modelled from the spec: the body of `release_funds` (section 4.4):
the record must exist (`BountyNotFound`) and be `Locked` (`InvalidState`).
Release authorization policy is external (spec's open question) and is
modelled as granted. -/
def releaseBody (bounty_id : Nat) (recipient : Addr) (st : ContractState) :
    Except Err ContractState :=
  match st.records bounty_id with
  | none => .error .BountyNotFound
  | some r =>
    if r.status = .Locked then .ok (applyRelease st bounty_id recipient r)
    else .error .InvalidState

/-- Modelled from the spec: the shared refund effect (section 4.5): pay
`a` to the recipient, decrease `remaining_amount`, set the status to
`Refunded` when the new remainder is zero and `PartiallyRefunded`
otherwise, and append one history entry `{mode, a, recipient, now}`. -/
def applyRefund (st : ContractState) (bounty_id : Nat) (r : EscrowRecord)
    (a : Int) (recipient : Addr) (mode : RefundMode) : ContractState :=
  let rem := r.remaining_amount - a
  { st with
    contractBalance := st.contractBalance - a
    balances := fun x =>
      if x = recipient then st.balances x + a else st.balances x
    records := fun i =>
      if i = bounty_id then
        some { r with remaining_amount := rem,
                      status := if rem = 0 then .Refunded else .PartiallyRefunded }
      else st.records i
    history := fun i =>
      if i = bounty_id then st.history i ++ [⟨mode, a, recipient, st.now⟩]
      else st.history i }

/-- Modelled from the spec: the body of `refund` (section 4.5 and the
design notes): the per-mode optional parameters are validated at the top of
the handler, rejecting with `MissingParameter` before any other check; then
the record is looked up (`BountyNotFound`); a record already `Released` or
`Refunded` gives `InvalidState`; `Full` and `Partial` require the deadline
to have passed (`DeadlineNotPassed`) and pay the original depositor,
`Custom` instead requires the external approval capability
(`RefundNotApproved`) and pays the supplied recipient; `Partial` and
`Custom` require `0 < amount ≤ remaining_amount` (`InvalidAmount`), `Full`
refunds the entire remainder ignoring the supplied parameters. -/
def refundBody (bounty_id : Nat) (amt : Option Int) (rcpt : Option Addr)
    (mode : RefundMode) (st : ContractState) : Except Err ContractState :=
  match mode with
  | .Full =>
    match st.records bounty_id with
    | none => .error .BountyNotFound
    | some r =>
      if r.status = .Released ∨ r.status = .Refunded then .error .InvalidState
      else if st.now < r.deadline then .error .DeadlineNotPassed
      else .ok (applyRefund st bounty_id r r.remaining_amount r.depositor .Full)
  | .Partial =>
    match amt with
    | none => .error .MissingParameter
    | some a =>
      match st.records bounty_id with
      | none => .error .BountyNotFound
      | some r =>
        if r.status = .Released ∨ r.status = .Refunded then .error .InvalidState
        else if st.now < r.deadline then .error .DeadlineNotPassed
        else if a ≤ 0 ∨ r.remaining_amount < a then .error .InvalidAmount
        else .ok (applyRefund st bounty_id r a r.depositor .Partial)
  | .Custom =>
    match amt, rcpt with
    | some a, some rc =>
      match st.records bounty_id with
      | none => .error .BountyNotFound
      | some r =>
        if r.status = .Released ∨ r.status = .Refunded then .error .InvalidState
        else if ¬ st.refund_approved bounty_id then .error .RefundNotApproved
        else if a ≤ 0 ∨ r.remaining_amount < a then .error .InvalidAmount
        else .ok (applyRefund st bounty_id r a rc .Custom)
    | _, _ => .error .MissingParameter

/-- Modelled from the spec: the validate phase of `batch_lock` (section
4.6): every item passes the single-item preconditions against the pre-batch
state, and the limiter is applied once per item keyed by that item's
depositor, threading the per-actor map; the first failure aborts. -/
def validateLockItems (st : ContractState) (ab : Addr → AbuseState) :
    List LockFundsItem → Except Err (Addr → AbuseState)
  | [] => .ok ab
  | it :: rest =>
    match check_and_record st.config st.whitelist ab it.depositor st.now with
    | .error e => .error e
    | .ok ab' =>
      match lockItemErr st it with
      | some e => .error e
      | none => validateLockItems st ab' rest

/-- Modelled from the spec: the commit phase of `batch_lock` (section 4.6):
apply the lock effect for every item in input order, with no checks. -/
def commitLockItems (st : ContractState) : List LockFundsItem → ContractState
  | [] => st
  | it :: rest => commitLockItems (applyLock st it) rest

/-- Modelled from the spec: the body of `batch_lock_funds` (section 4.6):
an empty list is `EmptyBatch`; two items sharing a `bounty_id` abort before
any mutation (`DuplicateBountyId`); otherwise validate every item, and only
if all validated commit all of them. -/
def batchLockBody (items : List LockFundsItem) (st : ContractState) :
    Except Err ContractState :=
  match items with
  | [] => .error .EmptyBatch
  | _ :: _ =>
    if (items.map LockFundsItem.bounty_id).Nodup then
      match validateLockItems st st.abuse items with
      | .error e => .error e
      | .ok ab' => .ok (commitLockItems { st with abuse := ab' } items)
    else .error .DuplicateBountyId

/-- Modelled from the spec: the single-item release preconditions (sections
4.4 and 4.6): the record exists and is `Locked`. -/
def releaseItemErr (st : ContractState) (it : ReleaseFundsItem) : Option Err :=
  match st.records it.bounty_id with
  | none => some .BountyNotFound
  | some r => if r.status = .Locked then none else some .InvalidState

/-- Modelled from the spec: the validate phase of `batch_release`
(section 4.6). -/
def validateReleaseItems (st : ContractState) : List ReleaseFundsItem → Option Err
  | [] => none
  | it :: rest =>
    match releaseItemErr st it with
    | some e => some e
    | none => validateReleaseItems st rest

/-- Modelled from the spec: the commit phase of `batch_release`
(section 4.6). -/
def commitReleaseItems (st : ContractState) : List ReleaseFundsItem → ContractState
  | [] => st
  | it :: rest =>
    match st.records it.bounty_id with
    | none => commitReleaseItems st rest
    | some r => commitReleaseItems (applyRelease st it.bounty_id it.contributor r) rest

/-- Modelled from the spec: the body of `batch_release_funds` (section
4.6), with the same empty / duplicate-id / validate-then-commit protocol as
`batchLockBody`. -/
def batchReleaseBody (items : List ReleaseFundsItem) (st : ContractState) :
    Except Err ContractState :=
  match items with
  | [] => .error .EmptyBatch
  | _ :: _ =>
    if (items.map ReleaseFundsItem.bounty_id).Nodup then
      match validateReleaseItems st items with
      | some e => .error e
      | none => .ok (commitReleaseItems st items)
    else .error .DuplicateBountyId

/-- Guarded entry point `lock_funds` (interface crate and section 6). -/
def lock_funds (st : ContractState) (depositor : Addr) (bounty_id : Nat)
    (amount : Int) (deadline : Nat) : Except Err Unit × ContractState :=
  withGuard (lockBody depositor bounty_id amount deadline) st

/-- Guarded entry point `release_funds` (interface crate and section 6). -/
def release_funds (st : ContractState) (bounty_id : Nat) (recipient : Addr) :
    Except Err Unit × ContractState :=
  withGuard (releaseBody bounty_id recipient) st

/-- Guarded entry point `refund` (interface crate and section 6). -/
def refund (st : ContractState) (bounty_id : Nat) (amt : Option Int)
    (rcpt : Option Addr) (mode : RefundMode) : Except Err Unit × ContractState :=
  withGuard (refundBody bounty_id amt rcpt mode) st

/-- Modelled from the spec: the additional guarded entry point
`refund_funds(bounty_id)` exercised by
`src/contracts/bounty_escrow/contracts/escrow/src/reentrancy_test.rs`
(its implementation is not among the staged files); it takes only the
bounty id and behaves as a `Full`-mode refund for that id, so a missing
record gives `BountyNotFound`. -/
def refund_funds (st : ContractState) (bounty_id : Nat) :
    Except Err Unit × ContractState :=
  withGuard (refundBody bounty_id none none .Full) st

/-- Guarded entry point `batch_lock_funds` (section 6, test files). -/
def batch_lock_funds (st : ContractState) (items : List LockFundsItem) :
    Except Err Unit × ContractState :=
  withGuard (batchLockBody items) st

/-- Guarded entry point `batch_release_funds` (section 6, test files). -/
def batch_release_funds (st : ContractState) (items : List ReleaseFundsItem) :
    Except Err Unit × ContractState :=
  withGuard (batchReleaseBody items) st

/-- Unguarded query `get_escrow_info` (section 6). -/
def get_escrow_info (st : ContractState) (bounty_id : Nat) : Option EscrowRecord :=
  st.records bounty_id

/-- Unguarded query `get_refund_history` (section 6). -/
def get_refund_history (st : ContractState) (bounty_id : Nat) :
    List RefundHistoryEntry :=
  st.history bounty_id

/-- One top-level invocation of a mutating entry point, for reachability
arguments over operation sequences. -/
inductive Op where
  | lock (depositor : Addr) (bounty_id : Nat) (amount : Int) (deadline : Nat)
  | release (bounty_id : Nat) (recipient : Addr)
  | refundOp (bounty_id : Nat) (amt : Option Int) (rcpt : Option Addr)
      (mode : RefundMode)
  | refundById (bounty_id : Nat)
  | batchLock (items : List LockFundsItem)
  | batchRelease (items : List ReleaseFundsItem)

/-- The state after one top-level invocation (the result state of the
corresponding guarded entry point). -/
def applyOp (st : ContractState) : Op → ContractState
  | .lock d i a dl => (lock_funds st d i a dl).2
  | .release i rc => (release_funds st i rc).2
  | .refundOp i a rc m => (refund st i a rc m).2
  | .refundById i => (refund_funds st i).2
  | .batchLock its => (batch_lock_funds st its).2
  | .batchRelease its => (batch_release_funds st its).2

/-- The state after a sequence of top-level invocations. -/
def runOps (st : ContractState) : List Op → ContractState
  | [] => st
  | op :: ops => runOps (applyOp st op) ops

/-- The record-level invariant of spec section 3. -/
def RecordInv (r : EscrowRecord) : Prop :=
  0 ≤ r.remaining_amount ∧ r.remaining_amount ≤ r.amount
  ∧ (r.status = .Released → r.remaining_amount = 0)
  ∧ (r.status = .Refunded → r.remaining_amount = 0)
  ∧ (r.status = .PartiallyRefunded →
      0 < r.remaining_amount ∧ r.remaining_amount < r.amount)

instance : DecidablePred RecordInv := fun r => by
  unfold RecordInv; infer_instance

/-- Every record of the store satisfies the record-level invariant. -/
def StateInv (st : ContractState) : Prop :=
  ∀ id r, st.records id = some r → RecordInv r

/-- A concrete limiter configuration for witnesses: window 60, at most 5
operations per window, cooldown 30. -/
def baseConfig : AbuseConfig := ⟨60, 5, 30⟩

/-- A concrete freshly initialized state for witnesses: no records, every
account holding 1000 tokens, guard clear, ledger time 0. -/
def baseState : ContractState :=
  { records := fun _ => none
    history := fun _ => []
    balances := fun _ => 1000
    contractBalance := 0
    flag := false
    abuse := fun _ => ⟨0, 0⟩
    whitelist := []
    config := baseConfig
    refund_approved := fun _ => false
    now := 0 }

/-- A concrete state holding one `Locked` record (bounty 1, depositor 7,
amount 100, deadline 50) for witnesses and counterexamples. -/
def lockedState : ContractState :=
  { baseState with
    records := fun i => if i = 1 then some ⟨7, 100, 100, .Locked, 50, 0⟩ else none
    contractBalance := 100 }

/-! ### Guard lemmas -/

/-- With the flag set, any guarded call fails `ReentrantCall` untouched. -/
theorem withGuard_flag_set {body : ContractState → Except Err ContractState}
    {st : ContractState} (h : st.flag = true) :
    withGuard body st = (.error .ReentrantCall, st) := by
  simp [withGuard, ReentrancyGuard.enter, h]

/-- With the flag clear, a guarded call that succeeds runs the body on the
flag-set state and clears the flag on the result. -/
theorem withGuard_flag_clear_ok {body : ContractState → Except Err ContractState}
    {st st₂ : ContractState} (h : st.flag = false)
    (hb : body { st with flag := true } = .ok st₂) :
    withGuard body st = (.ok (), { st₂ with flag := false }) := by
  simp [withGuard, ReentrancyGuard.enter, h, hb, ReentrancyGuard.exit]

/-- With the flag clear, a guarded call whose body fails reverts the
invocation's storage writes: the caller keeps the pre-call state. -/
theorem withGuard_flag_clear_error {body : ContractState → Except Err ContractState}
    {st : ContractState} {e : Err} (h : st.flag = false)
    (hb : body { st with flag := true } = .error e) :
    withGuard body st = (.error e, st) := by
  simp [withGuard, ReentrancyGuard.enter, h, hb]

/-- The limiter's only failure is `RateLimited`. -/
theorem abuseStep_error_eq {cfg : AbuseConfig} {s : AbuseState} {now : Nat}
    {e : Err} (h : abuseStep cfg s now = .error e) : e = .RateLimited := by
  unfold abuseStep at h
  dsimp only at h
  split at h <;> split at h <;> simp_all

/-- `check_and_record`'s only failure is `RateLimited`. -/
theorem check_and_record_error_eq {cfg : AbuseConfig} {wl : List Addr}
    {ab : Addr → AbuseState} {actor : Addr} {now : Nat} {e : Err}
    (h : check_and_record cfg wl ab actor now = .error e) : e = .RateLimited := by
  unfold check_and_record at h
  split at h
  · cases h
  · split at h
    · cases h
    · rename_i e' he
      injection h with h'
      exact h' ▸ abuseStep_error_eq he

/-- The single-item lock validation fails only with one of the four named
lock errors. -/
theorem lockItemErr_error_mem {st : ContractState} {it : LockFundsItem} {e : Err}
    (h : lockItemErr st it = some e) :
    e = .AlreadyLocked ∨ e = .InvalidAmount ∨ e = .InvalidDeadline ∨
      e = .InsufficientBalance := by
  unfold lockItemErr at h
  split_ifs at h <;>
    first
    | (injection h with h'; subst h'; decide)
    | injection h

/-- The single-item release validation fails only with `BountyNotFound` or
`InvalidState`. -/
theorem releaseItemErr_error_mem {st : ContractState} {it : ReleaseFundsItem}
    {e : Err} (h : releaseItemErr st it = some e) :
    e = .BountyNotFound ∨ e = .InvalidState := by
  unfold releaseItemErr at h
  split at h
  · injection h with h'; subst h'; decide
  · split at h
    · cases h
    · injection h with h'; subst h'; decide

/-- The lock body never fails with `ReentrantCall`. -/
theorem lockBody_error_ne_reentrant {d : Addr} {i : Nat} {a : Int} {dl : Nat}
    {st : ContractState} {e : Err} (h : lockBody d i a dl st = .error e) :
    e ≠ .ReentrantCall := by
  unfold lockBody at h
  split at h
  · rename_i e' he
    injection h with h'
    subst h'
    rw [check_and_record_error_eq he]
    decide
  · split at h
    · rename_i e' he
      injection h with h'
      subst h'
      rcases lockItemErr_error_mem he with h | h | h | h <;> (subst h; decide)
    · cases h

/-- The release body never fails with `ReentrantCall`. -/
theorem releaseBody_error_ne_reentrant {i : Nat} {rc : Addr}
    {st : ContractState} {e : Err} (h : releaseBody i rc st = .error e) :
    e ≠ .ReentrantCall := by
  unfold releaseBody at h
  split at h
  · injection h with h'; subst h'; decide
  · split at h
    · cases h
    · injection h with h'; subst h'; decide

/-- The refund body never fails with `ReentrantCall`. -/
theorem refundBody_error_ne_reentrant {i : Nat} {amt : Option Int}
    {rcpt : Option Addr} {m : RefundMode} {st : ContractState} {e : Err}
    (h : refundBody i amt rcpt m st = .error e) : e ≠ .ReentrantCall := by
  unfold refundBody at h
  split at h
  · split at h
    · injection h with h'; subst h'; decide
    · split_ifs at h <;>
        first
        | (injection h with h'; subst h'; decide)
        | injection h
  · split at h
    · injection h with h'; subst h'; decide
    · split at h
      · injection h with h'; subst h'; decide
      · split_ifs at h <;>
          first
          | (injection h with h'; subst h'; decide)
          | injection h
  · split at h
    · split at h
      · injection h with h'; subst h'; decide
      · split_ifs at h <;>
          first
          | (injection h with h'; subst h'; decide)
          | injection h
    · injection h with h'; subst h'; decide

/-- The batch-lock validate phase never fails with `ReentrantCall`. -/
theorem validateLockItems_error_ne_reentrant {st : ContractState} :
    ∀ {items : List LockFundsItem} {ab : Addr → AbuseState} {e : Err},
      validateLockItems st ab items = .error e → e ≠ .ReentrantCall := by
  intro items
  induction items with
  | nil => intro ab e h; cases h
  | cons it rest ih =>
    intro ab e h
    unfold validateLockItems at h
    split at h
    · rename_i e' he
      injection h with h'
      subst h'
      rw [check_and_record_error_eq he]
      decide
    · split at h
      · rename_i e' he
        injection h with h'
        subst h'
        rcases lockItemErr_error_mem he with h | h | h | h <;> (subst h; decide)
      · exact ih h

/-- The batch-release validate phase never fails with `ReentrantCall`. -/
theorem validateReleaseItems_error_ne_reentrant {st : ContractState} :
    ∀ {items : List ReleaseFundsItem} {e : Err},
      validateReleaseItems st items = some e → e ≠ .ReentrantCall := by
  intro items
  induction items with
  | nil => intro e h; cases h
  | cons it rest ih =>
    intro e h
    unfold validateReleaseItems at h
    split at h
    · rename_i e' he
      injection h with h'
      subst h'
      rcases releaseItemErr_error_mem he with h | h <;> (subst h; decide)
    · exact ih h

/-- The batch-lock body never fails with `ReentrantCall`. -/
theorem batchLockBody_error_ne_reentrant {items : List LockFundsItem}
    {st : ContractState} {e : Err} (h : batchLockBody items st = .error e) :
    e ≠ .ReentrantCall := by
  unfold batchLockBody at h
  split at h
  · injection h with h'; subst h'; decide
  · split at h
    · split at h
      · rename_i e' he
        injection h with h'
        subst h'
        exact validateLockItems_error_ne_reentrant he
      · cases h
    · injection h with h'; subst h'; decide

/-- The batch-release body never fails with `ReentrantCall`. -/
theorem batchReleaseBody_error_ne_reentrant {items : List ReleaseFundsItem}
    {st : ContractState} {e : Err} (h : batchReleaseBody items st = .error e) :
    e ≠ .ReentrantCall := by
  unfold batchReleaseBody at h
  split at h
  · injection h with h'; subst h'; decide
  · split at h
    · split at h
      · rename_i e' he
        injection h with h'
        subst h'
        exact validateReleaseItems_error_ne_reentrant he
      · cases h
    · injection h with h'; subst h'; decide

/-- With the flag clear, a guarded call built from a body that never fails
`ReentrantCall` cannot return `ReentrantCall`. -/
theorem withGuard_flag_clear_ne {body : ContractState → Except Err ContractState}
    {st : ContractState} (h : st.flag = false)
    (hb : ∀ e, body { st with flag := true } = .error e → e ≠ .ReentrantCall) :
    (withGuard body st).1 ≠ .error .ReentrantCall := by
  unfold withGuard ReentrancyGuard.enter
  rw [h]
  simp only [Bool.false_eq_true, if_false]
  split
  · simp
  · rename_i e he
    simpa using hb e he

/-! ### Claim theorems -/

/-- C1: while the reentrancy guard flag is set, every guarded mutating
entry point of the escrow contract (`lock_funds`, `release_funds`,
`refund`, `batch_lock_funds`, `batch_release_funds`) fails with
`ReentrantCall` regardless of otherwise-valid arguments and leaves the
state untouched; after the guard is cleared the same calls never fail with
`ReentrantCall`; `enter` fails with `ReentrantCall` exactly when the flag
is already set, otherwise sets it and succeeds, and `exit` unconditionally
clears the flag. -/
theorem guarded_entry_points_reentrancy (st : ContractState) :
    (st.flag = true →
      (∀ d i a dl, lock_funds st d i a dl = (.error .ReentrantCall, st))
      ∧ (∀ i rc, release_funds st i rc = (.error .ReentrantCall, st))
      ∧ (∀ i a rc m, refund st i a rc m = (.error .ReentrantCall, st))
      ∧ (∀ its, batch_lock_funds st its = (.error .ReentrantCall, st))
      ∧ (∀ its, batch_release_funds st its = (.error .ReentrantCall, st)))
    ∧ (st.flag = false →
      (∀ d i a dl, (lock_funds st d i a dl).1 ≠ .error .ReentrantCall)
      ∧ (∀ i rc, (release_funds st i rc).1 ≠ .error .ReentrantCall)
      ∧ (∀ i a rc m, (refund st i a rc m).1 ≠ .error .ReentrantCall)
      ∧ (∀ its, (batch_lock_funds st its).1 ≠ .error .ReentrantCall)
      ∧ (∀ its, (batch_release_funds st its).1 ≠ .error .ReentrantCall))
    ∧ ReentrancyGuard.enter true = .error .ReentrantCall
    ∧ ReentrancyGuard.enter false = .ok true
    ∧ (∀ b, ReentrancyGuard.exit b = false) := by
  refine ⟨fun h => ⟨?_, ?_, ?_, ?_, ?_⟩, fun h => ⟨?_, ?_, ?_, ?_, ?_⟩,
    rfl, rfl, fun b => rfl⟩
  · intro d i a dl; exact withGuard_flag_set h
  · intro i rc; exact withGuard_flag_set h
  · intro i a rc m; exact withGuard_flag_set h
  · intro its; exact withGuard_flag_set h
  · intro its; exact withGuard_flag_set h
  · intro d i a dl
    exact withGuard_flag_clear_ne h fun e he => lockBody_error_ne_reentrant he
  · intro i rc
    exact withGuard_flag_clear_ne h fun e he => releaseBody_error_ne_reentrant he
  · intro i a rc m
    exact withGuard_flag_clear_ne h fun e he => refundBody_error_ne_reentrant he
  · intro its
    exact withGuard_flag_clear_ne h fun e he => batchLockBody_error_ne_reentrant he
  · intro its
    exact withGuard_flag_clear_ne h fun e he => batchReleaseBody_error_ne_reentrant he

/-- C1 witness: with the guard held a fully valid lock is rejected
`ReentrantCall`; with it clear the same lock cannot fail `ReentrantCall`;
`enter` and `exit` behave as stated. -/
theorem guarded_entry_points_reentrancy_witness :
    lock_funds { baseState with flag := true } 7 1 100 50 =
      (.error .ReentrantCall, { baseState with flag := true })
    ∧ (lock_funds baseState 7 1 100 50).1 ≠ .error .ReentrantCall
    ∧ ReentrancyGuard.enter true = .error .ReentrantCall
    ∧ ReentrancyGuard.enter false = .ok true
    ∧ ReentrancyGuard.exit true = false :=
  ⟨((guarded_entry_points_reentrancy _).1 rfl).1 7 1 100 50,
   ((guarded_entry_points_reentrancy _).2.1 rfl).1 7 1 100 50,
   (guarded_entry_points_reentrancy baseState).2.2.1,
   (guarded_entry_points_reentrancy baseState).2.2.2.1,
   (guarded_entry_points_reentrancy baseState).2.2.2.2 true⟩

/-- C7: for every guarded operation and every exit path — body success or
body failure — the scoped wrapper clears the reentrancy flag, so after a
top-level invocation that started with the flag clear the flag is clear
again. -/
theorem raii_guard_clears_flag (body : ContractState → Except Err ContractState)
    (st : ContractState) (h : st.flag = false) :
    ((withGuard body st).2).flag = false := by
  unfold withGuard ReentrancyGuard.enter
  rw [h]
  simp only [Bool.false_eq_true, if_false]
  split
  · rfl
  · exact h

/-- C7 witness: a succeeding body and a failing body both leave the flag
clear. -/
theorem raii_guard_clears_flag_witness :
    ((withGuard (fun s => Except.ok s) baseState).2).flag = false
    ∧ ((withGuard (fun _ => Except.error Err.TransferFailed) baseState).2).flag
        = false :=
  ⟨raii_guard_clears_flag (fun s => Except.ok s) baseState rfl,
   raii_guard_clears_flag (fun _ => Except.error Err.TransferFailed) baseState rfl⟩

/-- C9: with the guard already locked, a second scoped acquisition via
`ReentrancyGuardRAII.new` returns an error and the flag remains locked (a
failed acquisition constructs no guard, so nothing is cleared); the flag
clears only when the outer guard itself is released via `exit`. -/
theorem raii_second_acquire_keeps_flag :
    ReentrancyGuardRAII.new false = (.ok (), true)
    ∧ ReentrancyGuardRAII.new true = (.error .ReentrantCall, true)
    ∧ ReentrancyGuard.exit true = false :=
  ⟨rfl, rfl, rfl⟩

/-- C10: the bounty escrow contract's additional guarded entry point
`refund_funds(bounty_id)`: while the guard is held it fails
`ReentrantCall`; with the guard free, a `bounty_id` with no record fails
with `BountyNotFound`, not `ReentrantCall`. -/
theorem refund_funds_entry (st : ContractState) (bounty_id : Nat) :
    (st.flag = true → refund_funds st bounty_id = (.error .ReentrantCall, st))
    ∧ (st.flag = false → st.records bounty_id = none →
        refund_funds st bounty_id = (.error .BountyNotFound, st)) := by
  constructor
  · intro h
    exact withGuard_flag_set h
  · intro h hr
    refine withGuard_flag_clear_error h ?_
    show refundBody bounty_id none none .Full _ = _
    unfold refundBody
    simp only []
    split
    · rfl
    · rename_i r hr'
      rw [show ({ st with flag := true } : ContractState).records = st.records
        from rfl, hr] at hr'
      cases hr'

/-- C10 witness: `refund_funds` at a concrete guard-held state and at a
concrete guard-free state with no record for bounty 1. -/
theorem refund_funds_entry_witness :
    refund_funds { baseState with flag := true } 1 =
      (.error .ReentrantCall, { baseState with flag := true })
    ∧ refund_funds baseState 1 = (.error .BountyNotFound, baseState) :=
  ⟨(refund_funds_entry _ 1).1 rfl, (refund_funds_entry _ 1).2 rfl rfl⟩

/-- C3: fund conservation for `lock_funds`: a successful lock debits the
depositor by exactly `amount` and credits the contract's custody by exactly
`amount`; a failed lock leaves the whole state — balances and records —
unchanged, so no record is created for the bounty id. -/
theorem lock_funds_conservation (st : ContractState) (d : Addr) (i : Nat)
    (a : Int) (dl : Nat) (h : st.flag = false) :
    ((lock_funds st d i a dl).1 = .ok () →
      ((lock_funds st d i a dl).2).balances d = st.balances d - a
      ∧ ((lock_funds st d i a dl).2).contractBalance = st.contractBalance + a)
    ∧ ((lock_funds st d i a dl).1 ≠ .ok () → (lock_funds st d i a dl).2 = st) := by
  cases hb : lockBody d i a dl { st with flag := true } with
  | error e =>
    rw [show lock_funds st d i a dl = withGuard (lockBody d i a dl) st from rfl,
        withGuard_flag_clear_error h hb]
    exact ⟨fun hok => (nomatch hok), fun _ => rfl⟩
  | ok st₂ =>
    rw [show lock_funds st d i a dl = withGuard (lockBody d i a dl) st from rfl,
        withGuard_flag_clear_ok h hb]
    refine ⟨fun _ => ?_, fun hne => absurd rfl hne⟩
    unfold lockBody at hb
    split at hb
    · cases hb
    · split at hb
      · cases hb
      · injection hb with hb'
        subst hb'
        constructor
        · show (applyLock _ _).balances d = _
          simp [applyLock]
        · show (applyLock _ _).contractBalance = _
          simp [applyLock]

/-- C3 witness: at the concrete fresh state, a valid lock moves exactly 100
from depositor 7 to the contract, and a zero-amount lock changes nothing. -/
theorem lock_funds_conservation_witness :
    (((lock_funds baseState 7 1 100 50).2).balances 7
        = baseState.balances 7 - 100
      ∧ ((lock_funds baseState 7 1 100 50).2).contractBalance
        = baseState.contractBalance + 100)
    ∧ (lock_funds baseState 7 1 0 50).2 = baseState :=
  ⟨(lock_funds_conservation baseState 7 1 100 50 rfl).1 rfl,
   (lock_funds_conservation baseState 7 1 0 50 rfl).2 (fun hx => nomatch hx)⟩

/-- A record already `Released` or `Refunded` is terminal: any release, and
any refund whose per-mode required parameters are present, fails with
`InvalidState` and leaves the state unchanged. -/
theorem terminal_record_rejects (st : ContractState) (i : Nat)
    (r : EscrowRecord) (hf : st.flag = false) (hr : st.records i = some r)
    (hs : r.status = .Released ∨ r.status = .Refunded) :
    (∀ rc, release_funds st i rc = (.error .InvalidState, st))
    ∧ (∀ a? rc?, refund st i a? rc? .Full = (.error .InvalidState, st))
    ∧ (∀ a rc?, refund st i (some a) rc? .Partial = (.error .InvalidState, st))
    ∧ (∀ a rc, refund st i (some a) (some rc) .Custom
        = (.error .InvalidState, st)) := by
  have hsl : ¬ r.status = EscrowStatus.Locked := by
    rcases hs with h | h <;> rw [h] <;> decide
  refine ⟨fun rc => ?_, fun a? rc? => ?_, fun a rc? => ?_, fun a rc => ?_⟩
  · refine withGuard_flag_clear_error hf ?_
    unfold releaseBody
    simp only [hr]
    rw [if_neg hsl]
  · refine withGuard_flag_clear_error hf ?_
    unfold refundBody
    simp only [hr]
    rw [if_pos hs]
  · refine withGuard_flag_clear_error hf ?_
    unfold refundBody
    simp only [hr]
    rw [if_pos hs]
  · refine withGuard_flag_clear_error hf ?_
    unfold refundBody
    simp only [hr]
    rw [if_pos hs]

/-- C8: for a `Locked` record whose deadline has been reached, a
`Full`-mode refund succeeds, ignores the supplied amount and recipient,
refunds the entire `remaining_amount` to the original depositor, sets
`remaining_amount = 0` and `status = Refunded`, and appends exactly one
`Full` entry to the refund history; strictly before the deadline the
`Full` refund is rejected with `DeadlineNotPassed`. -/
theorem full_refund_at_deadline (st : ContractState) (i : Nat)
    (r : EscrowRecord) (a? : Option Int) (rc? : Option Addr)
    (hf : st.flag = false) (hr : st.records i = some r)
    (hs : r.status = .Locked) :
    (r.deadline ≤ st.now →
      ∃ st', refund st i a? rc? .Full = (.ok (), st')
        ∧ st'.balances r.depositor = st.balances r.depositor + r.remaining_amount
        ∧ st'.contractBalance = st.contractBalance - r.remaining_amount
        ∧ st'.records i = some { r with remaining_amount := 0, status := .Refunded }
        ∧ st'.history i = st.history i
            ++ [⟨.Full, r.remaining_amount, r.depositor, st.now⟩])
    ∧ (st.now < r.deadline →
        refund st i a? rc? .Full = (.error .DeadlineNotPassed, st)) := by
  have hsne : ¬ (r.status = EscrowStatus.Released ∨ r.status = EscrowStatus.Refunded) := by
    rw [hs]; rintro (h | h) <;> cases h
  constructor
  · intro hd
    have hbody : refundBody i a? rc? .Full { st with flag := true }
        = .ok (applyRefund { st with flag := true } i r
            r.remaining_amount r.depositor .Full) := by
      unfold refundBody
      simp only [hr]
      rw [if_neg hsne, if_neg (not_lt.mpr hd)]
    refine ⟨_, withGuard_flag_clear_ok hf hbody, ?_, ?_, ?_, ?_⟩
    · simp [applyRefund]
    · simp [applyRefund]
    · simp [applyRefund]
    · simp [applyRefund]
  · intro hd
    refine withGuard_flag_clear_error hf ?_
    unfold refundBody
    simp only [hr]
    rw [if_neg hsne, if_pos hd]

/-- C8 witness: at the concrete locked state moved to the deadline, the
`Full` refund pays depositor 7 the full 100, zeroes and refunds the record
and appends one `Full` history entry; one second before the deadline it is
rejected with `DeadlineNotPassed`. -/
theorem full_refund_at_deadline_witness :
    (∃ st', refund { lockedState with now := 50 } 1 (some 3) (some 9) .Full
        = (.ok (), st')
      ∧ st'.balances 7 = ({ lockedState with now := 50 } : ContractState).balances 7 + 100
      ∧ st'.contractBalance
          = ({ lockedState with now := 50 } : ContractState).contractBalance - 100
      ∧ st'.records 1 = some ⟨7, 100, 0, .Refunded, 50, 0⟩
      ∧ st'.history 1 = [⟨.Full, 100, 7, 50⟩])
    ∧ refund { lockedState with now := 49 } 1 (some 3) (some 9) .Full
        = (.error .DeadlineNotPassed, { lockedState with now := 49 }) :=
  ⟨(full_refund_at_deadline { lockedState with now := 50 } 1
      ⟨7, 100, 100, .Locked, 50, 0⟩ (some 3) (some 9) rfl rfl rfl).1
      (by decide),
   (full_refund_at_deadline { lockedState with now := 49 } 1
      ⟨7, 100, 100, .Locked, 50, 0⟩ (some 3) (some 9) rfl rfl rfl).2
      (by decide)⟩

/-- C4 (amended): a successful release of a `Locked` record moves the
whole `remaining_amount` from the contract's custody to the recipient and
sets `status = Released`, `remaining_amount = 0`; afterwards any second
release fails `InvalidState`, and so does any refund whose per-mode
required optional parameters are present (`Full` with any parameters,
`Partial` with an amount, `Custom` with amount and recipient); a refund
missing a required parameter fails `MissingParameter` instead. -/
theorem release_funds_terminal (st : ContractState) (i : Nat) (rc : Addr)
    (r : EscrowRecord) (hf : st.flag = false) (hr : st.records i = some r)
    (hs : r.status = .Locked) :
    ∃ st₁, release_funds st i rc = (.ok (), st₁)
      ∧ st₁.contractBalance = st.contractBalance - r.remaining_amount
      ∧ st₁.balances rc = st.balances rc + r.remaining_amount
      ∧ st₁.records i = some { r with status := .Released, remaining_amount := 0 }
      ∧ (∀ rc₂, (release_funds st₁ i rc₂).1 = .error .InvalidState)
      ∧ (∀ a? rc?, (refund st₁ i a? rc? .Full).1 = .error .InvalidState)
      ∧ (∀ a rc?, (refund st₁ i (some a) rc? .Partial).1 = .error .InvalidState)
      ∧ (∀ a rc₂, (refund st₁ i (some a) (some rc₂) .Custom).1
          = .error .InvalidState)
      ∧ (refund st₁ i none none .Partial).1 = .error .MissingParameter := by
  have hbody : releaseBody i rc { st with flag := true }
      = .ok (applyRelease { st with flag := true } i rc r) := by
    unfold releaseBody
    simp only [hr]
    rw [if_pos hs]
  refine ⟨{ applyRelease { st with flag := true } i rc r with flag := false },
    withGuard_flag_clear_ok hf hbody, ?_, ?_, ?_, ?_, ?_, ?_, ?_, ?_⟩
  · simp [applyRelease]
  · simp [applyRelease]
  · simp [applyRelease]
  all_goals {
    have hterm := terminal_record_rejects
      { applyRelease { st with flag := true } i rc r with flag := false } i
      { r with status := .Released, remaining_amount := 0 }
      rfl (by simp [applyRelease])
      (Or.inl rfl)
    first
    | exact fun rc₂ => by rw [hterm.1 rc₂]
    | exact fun a? rc? => by rw [hterm.2.1 a? rc?]
    | exact fun a rc? => by rw [hterm.2.2.1 a rc?]
    | exact fun a rc₂ => by rw [hterm.2.2.2 a rc₂]
    | rfl
  }

/-- C4 witness: at the concrete locked state, release moves 100 to
recipient 9, marks the record `Released` with zero remainder, and a second
release is rejected `InvalidState`. -/
theorem release_funds_terminal_witness :
    ∃ st₁, release_funds lockedState 1 9 = (.ok (), st₁)
      ∧ st₁.contractBalance = lockedState.contractBalance - 100
      ∧ st₁.balances 9 = lockedState.balances 9 + 100
      ∧ st₁.records 1 = some ⟨7, 100, 0, .Released, 50, 0⟩
      ∧ (release_funds st₁ 1 9).1 = .error .InvalidState :=
  match release_funds_terminal lockedState 1 9 ⟨7, 100, 100, .Locked, 50, 0⟩
      rfl rfl rfl with
  | ⟨st₁, h1, h2, h3, h4, h5, _⟩ => ⟨st₁, h1, h2, h3, h4, h5 9⟩

/-- C4 counterexample: after releasing bounty 1 at the concrete locked
state, a refund invoked as `refund(1, None, None, Partial)` does fail, but
with `MissingParameter`, not `InvalidState` as the claim's universal
statement requires. -/
theorem release_funds_terminal_counterexample :
    (release_funds lockedState 1 9).1 = .ok ()
    ∧ (refund (release_funds lockedState 1 9).2 1 none none .Partial).1
        = .error .MissingParameter
    ∧ Err.MissingParameter ≠ Err.InvalidState := by
  exact ⟨rfl, rfl, by decide⟩

/-- If some item of a lock batch fails the single-item validation, the
validate phase fails, whatever limiter map is threaded through it. -/
theorem validateLockItems_mem_error (st : ContractState)
    (items : List LockFundsItem) (ab : Addr → AbuseState)
    (h : ∃ it ∈ items, lockItemErr st it ≠ none) :
    ∃ e, validateLockItems st ab items = .error e := by
  induction items generalizing ab with
  | nil =>
    obtain ⟨it, hmem, _⟩ := h
    cases hmem
  | cons a rest ih =>
    obtain ⟨it, hmem, hne⟩ := h
    cases hcr : check_and_record st.config st.whitelist ab a.depositor st.now with
    | error e =>
      refine ⟨e, ?_⟩
      unfold validateLockItems
      rw [hcr]
    | ok ab' =>
      cases hli : lockItemErr st a with
      | some e =>
        refine ⟨e, ?_⟩
        unfold validateLockItems
        rw [hcr, hli]
      | none =>
        rcases List.mem_cons.mp hmem with rfl | hmem'
        · exact absurd hli hne
        · obtain ⟨e, he⟩ := ih ab' ⟨it, hmem', hne⟩
          refine ⟨e, ?_⟩
          unfold validateLockItems
          rw [hcr, hli]
          exact he

/-- If some item of a release batch fails the single-item validation, the
validate phase fails. -/
theorem validateReleaseItems_mem_error (st : ContractState)
    (items : List ReleaseFundsItem)
    (h : ∃ it ∈ items, releaseItemErr st it ≠ none) :
    ∃ e, validateReleaseItems st items = some e := by
  induction items with
  | nil =>
    obtain ⟨it, hmem, _⟩ := h
    cases hmem
  | cons a rest ih =>
    obtain ⟨it, hmem, hne⟩ := h
    cases hre : releaseItemErr st a with
    | some e =>
      refine ⟨e, ?_⟩
      unfold validateReleaseItems
      rw [hre]
    | none =>
      rcases List.mem_cons.mp hmem with rfl | hmem'
      · exact absurd hre hne
      · obtain ⟨e, he⟩ := ih ⟨it, hmem', hne⟩
        refine ⟨e, ?_⟩
        unfold validateReleaseItems
        rw [hre]
        exact he

/-- A lock batch with two items sharing a bounty id is rejected whole. -/
theorem batchLockBody_dup_error (items : List LockFundsItem)
    (st : ContractState) (hnd : ¬ (items.map LockFundsItem.bounty_id).Nodup) :
    batchLockBody items st = .error .DuplicateBountyId := by
  cases items with
  | nil => exact absurd (by simp) hnd
  | cons a rest =>
    unfold batchLockBody
    rw [if_neg hnd]

/-- A release batch with two items sharing a bounty id is rejected whole. -/
theorem batchReleaseBody_dup_error (items : List ReleaseFundsItem)
    (st : ContractState) (hnd : ¬ (items.map ReleaseFundsItem.bounty_id).Nodup) :
    batchReleaseBody items st = .error .DuplicateBountyId := by
  cases items with
  | nil => exact absurd (by simp) hnd
  | cons a rest =>
    unfold batchReleaseBody
    rw [if_neg hnd]

/-- A lock batch containing one invalid item is rejected whole. -/
theorem batchLockBody_mem_error (items : List LockFundsItem)
    (st : ContractState) (it : LockFundsItem) (hmem : it ∈ items)
    (hne : lockItemErr st it ≠ none) :
    ∃ e, batchLockBody items st = .error e := by
  cases items with
  | nil => cases hmem
  | cons a rest =>
    by_cases hnd : (((a :: rest).map LockFundsItem.bounty_id)).Nodup
    · obtain ⟨e, he⟩ :=
        validateLockItems_mem_error st (a :: rest) st.abuse ⟨it, hmem, hne⟩
      refine ⟨e, ?_⟩
      unfold batchLockBody
      rw [if_pos hnd, he]
    · exact ⟨.DuplicateBountyId, batchLockBody_dup_error _ _ hnd⟩

/-- A release batch containing one invalid item is rejected whole. -/
theorem batchReleaseBody_mem_error (items : List ReleaseFundsItem)
    (st : ContractState) (it : ReleaseFundsItem) (hmem : it ∈ items)
    (hne : releaseItemErr st it ≠ none) :
    ∃ e, batchReleaseBody items st = .error e := by
  cases items with
  | nil => cases hmem
  | cons a rest =>
    by_cases hnd : (((a :: rest).map ReleaseFundsItem.bounty_id)).Nodup
    · obtain ⟨e, he⟩ :=
        validateReleaseItems_mem_error st (a :: rest) ⟨it, hmem, hne⟩
      refine ⟨e, ?_⟩
      unfold batchReleaseBody
      rw [if_pos hnd, he]
    · exact ⟨.DuplicateBountyId, batchReleaseBody_dup_error _ _ hnd⟩

/-- C2: batch atomicity for `batch_lock_funds` and `batch_release_funds`:
an empty batch is rejected with `EmptyBatch`; a batch with two items
sharing a `bounty_id` is rejected whole; a batch containing any item that
fails the corresponding single-item validation is rejected whole; in every
rejection the state is returned unchanged, so zero records are created or
mutated for every item of the batch. -/
theorem batch_atomicity (st : ContractState) (h : st.flag = false) :
    batch_lock_funds st [] = (.error .EmptyBatch, st)
    ∧ batch_release_funds st [] = (.error .EmptyBatch, st)
    ∧ (∀ items : List LockFundsItem,
        ¬ (items.map LockFundsItem.bounty_id).Nodup →
        batch_lock_funds st items = (.error .DuplicateBountyId, st))
    ∧ (∀ items : List ReleaseFundsItem,
        ¬ (items.map ReleaseFundsItem.bounty_id).Nodup →
        batch_release_funds st items = (.error .DuplicateBountyId, st))
    ∧ (∀ (items : List LockFundsItem) (it : LockFundsItem), it ∈ items →
        lockItemErr st it ≠ none →
        ∃ e, batch_lock_funds st items = (.error e, st))
    ∧ (∀ (items : List ReleaseFundsItem) (it : ReleaseFundsItem), it ∈ items →
        releaseItemErr st it ≠ none →
        ∃ e, batch_release_funds st items = (.error e, st)) := by
  refine ⟨withGuard_flag_clear_error h rfl, withGuard_flag_clear_error h rfl,
    fun items hnd => ?_, fun items hnd => ?_,
    fun items it hmem hne => ?_, fun items it hmem hne => ?_⟩
  · exact withGuard_flag_clear_error h (batchLockBody_dup_error items _ hnd)
  · exact withGuard_flag_clear_error h (batchReleaseBody_dup_error items _ hnd)
  · obtain ⟨e, he⟩ :=
      batchLockBody_mem_error items { st with flag := true } it hmem hne
    exact ⟨e, withGuard_flag_clear_error h he⟩
  · obtain ⟨e, he⟩ :=
      batchReleaseBody_mem_error items { st with flag := true } it hmem hne
    exact ⟨e, withGuard_flag_clear_error h he⟩

/-- C2 witness: at the concrete fresh state, the empty lock and release
batches fail `EmptyBatch`, a duplicate-id lock batch fails whole, and a
lock batch whose second item has amount 0 fails whole; the state is
returned unchanged each time. -/
theorem batch_atomicity_witness :
    batch_lock_funds baseState [] = (.error .EmptyBatch, baseState)
    ∧ batch_release_funds baseState [] = (.error .EmptyBatch, baseState)
    ∧ batch_lock_funds baseState [⟨3, 7, 100, 50⟩, ⟨3, 7, 200, 50⟩]
        = (.error .DuplicateBountyId, baseState)
    ∧ (∃ e, batch_lock_funds baseState [⟨4, 7, 100, 50⟩, ⟨5, 7, 0, 50⟩]
        = (.error e, baseState)) :=
  ⟨(batch_atomicity baseState rfl).1,
   (batch_atomicity baseState rfl).2.1,
   (batch_atomicity baseState rfl).2.2.1 _ (by decide),
   (batch_atomicity baseState rfl).2.2.2.2.1 _ ⟨5, 7, 0, 50⟩ (by decide)
     (by decide)⟩

/-! ### Invariant preservation -/

/-- A freshly locked record satisfies the record invariant. -/
theorem recordInv_locked {d : Addr} {a : Int} {dl n : Nat} (ha : 0 < a) :
    RecordInv ⟨d, a, a, .Locked, dl, n⟩ := by
  unfold RecordInv
  dsimp only
  exact ⟨ha.le, le_refl a, fun hs => (nomatch hs), fun hs => (nomatch hs),
    fun hs => (nomatch hs)⟩

/-- Releasing a record satisfying the invariant keeps the invariant. -/
theorem recordInv_released {r : EscrowRecord} (h : RecordInv r) :
    RecordInv { r with status := .Released, remaining_amount := 0 } := by
  obtain ⟨h0, hra, _, _, _⟩ := h
  unfold RecordInv
  dsimp only
  exact ⟨le_refl 0, le_trans h0 hra, fun _ => rfl, fun _ => rfl,
    fun hs => (nomatch hs)⟩

/-- A positive refund within the remainder keeps the invariant. -/
theorem recordInv_refund_update {r : EscrowRecord} (h : RecordInv r) {a : Int}
    (ha : 0 < a) (hle : a ≤ r.remaining_amount) :
    RecordInv { r with remaining_amount := r.remaining_amount - a,
                       status := (if r.remaining_amount - a = 0
                         then EscrowStatus.Refunded
                         else EscrowStatus.PartiallyRefunded) } := by
  obtain ⟨h0, hra, _, _, _⟩ := h
  unfold RecordInv
  dsimp only
  by_cases hz : r.remaining_amount - a = 0
  · rw [if_pos hz]
    exact ⟨by omega, by omega, fun _ => hz, fun _ => hz, fun hs => (nomatch hs)⟩
  · rw [if_neg hz]
    exact ⟨by omega, by omega, fun hs => (nomatch hs), fun hs => (nomatch hs),
      fun _ => ⟨by omega, by omega⟩⟩

/-- Refunding the whole remainder keeps the invariant. -/
theorem recordInv_full_refund {r : EscrowRecord} (h : RecordInv r) :
    RecordInv { r with
                remaining_amount := r.remaining_amount - r.remaining_amount,
                status := (if r.remaining_amount - r.remaining_amount = 0
                  then EscrowStatus.Refunded
                  else EscrowStatus.PartiallyRefunded) } := by

  obtain ⟨h0, hra, _, _, _⟩ := h
  unfold RecordInv
  dsimp only
  rw [sub_self, if_pos rfl]
  exact ⟨le_refl 0, by omega, fun _ => rfl, fun _ => rfl,
    fun hs => (nomatch hs)⟩

/-- `applyLock` with a positive amount preserves the store invariant. -/
theorem stateInv_applyLock {st : ContractState} {it : LockFundsItem}
    (h : StateInv st) (ha : 0 < it.amount) : StateInv (applyLock st it) := by
  intro j r hj
  unfold applyLock at hj
  dsimp only at hj
  split at hj
  · injection hj with hj'
    subst hj'
    exact recordInv_locked ha
  · exact h j r hj

/-- `applyRelease` on a record satisfying the invariant preserves the store
invariant. -/
theorem stateInv_applyRelease {st : ContractState} {i : Nat} {rc : Addr}
    {r0 : EscrowRecord} (h : StateInv st) (h0 : RecordInv r0) :
    StateInv (applyRelease st i rc r0) := by
  intro j r hj
  unfold applyRelease at hj
  dsimp only at hj
  split at hj
  · injection hj with hj'
    subst hj'
    exact recordInv_released h0
  · exact h j r hj

/-- `applyRefund` of a positive or whole-remainder amount preserves the
store invariant. -/
theorem stateInv_applyRefund {st : ContractState} {i : Nat}
    {r0 : EscrowRecord} {a : Int} {rc : Addr} {m : RefundMode}
    (h : StateInv st) (h0 : RecordInv r0)
    (hpos : 0 < a ∨ a = r0.remaining_amount) (hle : a ≤ r0.remaining_amount) :
    StateInv (applyRefund st i r0 a rc m) := by
  intro j r hj
  unfold applyRefund at hj
  dsimp only at hj
  split at hj
  · injection hj with hj'
    subst hj'
    rcases hpos with hp | rfl
    · exact recordInv_refund_update h0 hp hle
    · exact recordInv_full_refund h0
  · exact h j r hj

/-- An item passing the single-item lock validation has a positive amount. -/
theorem lockItemErr_none_amount_pos {st : ContractState} {it : LockFundsItem}
    (h : lockItemErr st it = none) : 0 < it.amount := by
  unfold lockItemErr at h
  split_ifs at h <;> first | omega | simp at h

/-- The lock body preserves the store invariant. -/
theorem lockBody_preserves {d : Addr} {i : Nat} {a : Int} {dl : Nat}
    {st st' : ContractState} (h : StateInv st)
    (hb : lockBody d i a dl st = .ok st') : StateInv st' := by
  unfold lockBody at hb
  split at hb
  · cases hb
  · split at hb
    · cases hb
    · rename_i hli
      injection hb with hb'
      subst hb'
      exact stateInv_applyLock (fun j r hj => h j r hj)
        (lockItemErr_none_amount_pos hli)

/-- The release body preserves the store invariant. -/
theorem releaseBody_preserves {i : Nat} {rc : Addr} {st st' : ContractState}
    (h : StateInv st) (hb : releaseBody i rc st = .ok st') : StateInv st' := by
  unfold releaseBody at hb
  split at hb
  · cases hb
  · rename_i r0 hr0
    split at hb
    · injection hb with hb'
      subst hb'
      exact stateInv_applyRelease h (h _ _ hr0)
    · cases hb

/-- The refund body preserves the store invariant. -/
theorem refundBody_preserves {i : Nat} {amt : Option Int} {rcpt : Option Addr}
    {m : RefundMode} {st st' : ContractState} (h : StateInv st)
    (hb : refundBody i amt rcpt m st = .ok st') : StateInv st' := by
  unfold refundBody at hb
  split at hb
  · split at hb
    · cases hb
    · rename_i r0 hr0
      split at hb
      · cases hb
      · split at hb
        · cases hb
        · injection hb with hb'
          subst hb'
          exact stateInv_applyRefund h (h _ _ hr0) (Or.inr rfl) (le_refl _)
  · split at hb
    · cases hb
    · split at hb
      · cases hb
      · rename_i r0 hr0
        split at hb
        · cases hb
        · split at hb
          · cases hb
          · split at hb
            · cases hb
            · rename_i hamt
              injection hb with hb'
              subst hb'
              exact stateInv_applyRefund h (h _ _ hr0) (Or.inl (by omega))
                (by omega)
  · split at hb
    · split at hb
      · cases hb
      · rename_i r0 hr0
        split at hb
        · cases hb
        · split at hb
          · cases hb
          · split at hb
            · cases hb
            · rename_i hamt
              injection hb with hb'
              subst hb'
              exact stateInv_applyRefund h (h _ _ hr0) (Or.inl (by omega))
                (by omega)
    · cases hb

/-- A validated lock batch has only passing items. -/
theorem validateLockItems_ok_items :
    ∀ (items : List LockFundsItem) (st : ContractState)
      (ab ab' : Addr → AbuseState),
      validateLockItems st ab items = .ok ab' →
      ∀ it ∈ items, lockItemErr st it = none := by
  intro items
  induction items with
  | nil =>
    intro st ab ab' _ it hit
    cases hit
  | cons a rest ih =>
    intro st ab ab' h it hit
    unfold validateLockItems at h
    split at h
    · cases h
    · split at h
      · cases h
      · rcases List.mem_cons.mp hit with rfl | hit'
        · assumption
        · exact ih st _ ab' h it hit'

/-- The lock commit phase preserves the store invariant when every item's
amount is positive. -/
theorem commitLockItems_preserves :
    ∀ (items : List LockFundsItem) (st : ContractState), StateInv st →
      (∀ it ∈ items, 0 < it.amount) → StateInv (commitLockItems st items) := by
  intro items
  induction items with
  | nil =>
    intro st h _
    exact h
  | cons a rest ih =>
    intro st h hpos
    unfold commitLockItems
    exact ih (applyLock st a)
      (stateInv_applyLock h (hpos a (List.mem_cons_self a rest)))
      fun it hit => hpos it (List.mem_cons_of_mem a hit)

/-- The release commit phase preserves the store invariant. -/
theorem commitReleaseItems_preserves :
    ∀ (items : List ReleaseFundsItem) (st : ContractState), StateInv st →
      StateInv (commitReleaseItems st items) := by
  intro items
  induction items with
  | nil =>
    intro st h
    exact h
  | cons a rest ih =>
    intro st h
    unfold commitReleaseItems
    split
    · exact ih st h
    · rename_i r0 hr0
      exact ih _ (stateInv_applyRelease h (h _ _ hr0))

/-- The batch-lock body preserves the store invariant. -/
theorem batchLockBody_preserves {items : List LockFundsItem}
    {st st' : ContractState} (h : StateInv st)
    (hb : batchLockBody items st = .ok st') : StateInv st' := by
  unfold batchLockBody at hb
  split at hb
  · cases hb
  · split at hb
    · split at hb
      · cases hb
      · rename_i ab' hv
        injection hb with hb'
        subst hb'
        refine commitLockItems_preserves _ _ (fun j r hj => h j r hj) ?_
        intro it hit
        exact lockItemErr_none_amount_pos
          (validateLockItems_ok_items _ _ _ _ hv it hit)
    · cases hb

/-- The batch-release body preserves the store invariant. -/
theorem batchReleaseBody_preserves {items : List ReleaseFundsItem}
    {st st' : ContractState} (h : StateInv st)
    (hb : batchReleaseBody items st = .ok st') : StateInv st' := by
  unfold batchReleaseBody at hb
  split at hb
  · cases hb
  · split at hb
    · split at hb
      · cases hb
      · injection hb with hb'
        subst hb'
        exact commitReleaseItems_preserves _ _ h
    · cases hb

/-- The guard wrapper preserves the store invariant whenever its body
does. -/
theorem withGuard_preserves {body : ContractState → Except Err ContractState}
    {st : ContractState}
    (hbody : ∀ s s', StateInv s → body s = .ok s' → StateInv s')
    (h : StateInv st) : StateInv (withGuard body st).2 := by
  unfold withGuard ReentrancyGuard.enter
  by_cases hf : st.flag = true
  · rw [if_pos hf]
    exact h
  · rw [if_neg hf]
    dsimp only
    split
    · rename_i s₂ hs₂
      intro j r hj
      exact hbody { st with flag := true } s₂ (fun j' r' hj' => h j' r' hj')
        hs₂ j r hj
    · exact h

/-- Every top-level invocation preserves the store invariant. -/
theorem applyOp_preserves (op : Op) (st : ContractState) (h : StateInv st) :
    StateInv (applyOp st op) := by
  cases op with
  | lock d i a dl =>
    exact withGuard_preserves (fun s s' hs hb => lockBody_preserves hs hb) h
  | release i rc =>
    exact withGuard_preserves (fun s s' hs hb => releaseBody_preserves hs hb) h
  | refundOp i a rc m =>
    exact withGuard_preserves (fun s s' hs hb => refundBody_preserves hs hb) h
  | refundById i =>
    exact withGuard_preserves (fun s s' hs hb => refundBody_preserves hs hb) h
  | batchLock its =>
    exact withGuard_preserves (fun s s' hs hb => batchLockBody_preserves hs hb) h
  | batchRelease its =>
    exact withGuard_preserves
      (fun s s' hs hb => batchReleaseBody_preserves hs hb) h

/-- Sequences of top-level invocations preserve the store invariant. -/
theorem runOps_preserves :
    ∀ (ops : List Op) (st : ContractState), StateInv st →
      StateInv (runOps st ops) := by
  intro ops
  induction ops with
  | nil =>
    intro st h
    exact h
  | cons op rest ih =>
    intro st h
    exact ih (applyOp st op) (applyOp_preserves op st h)

/-- C5: after any sequence of top-level lock / release / refund / batch
operations from a store satisfying the record invariant (in particular the
empty initial store), every reachable record satisfies
`0 ≤ remaining_amount ≤ amount`, `Released` and `Refunded` records have
`remaining_amount = 0`, and `PartiallyRefunded` records have
`0 < remaining_amount < amount`. -/
theorem escrow_record_invariant (ops : List Op) (st : ContractState)
    (h : StateInv st) (i : Nat) (r : EscrowRecord)
    (hr : (runOps st ops).records i = some r) : RecordInv r :=
  runOps_preserves ops st h i r hr

/-- C5 witness: the record reached by locking bounty 1 from the empty
store satisfies the invariant. -/
theorem escrow_record_invariant_witness :
    RecordInv ⟨7, 100, 100, .Locked, 50, 0⟩ :=
  escrow_record_invariant [.lock 7 1 100 50] baseState
    (fun _ _ hj => (nomatch hj)) 1 ⟨7, 100, 100, .Locked, 50, 0⟩ (by decide)

/-! ### Rate limiter -/

/-- Starting with the in-window count low enough, a run of operations all
succeed and the count grows by at most one per operation. -/
theorem runAbuse_ok_of_count_le (cfg : AbuseConfig) :
    ∀ (ts : List Nat) (l c : Nat),
      c + ts.length ≤ cfg.max_ops_per_window →
      ∃ s', runAbuse cfg ⟨l, c⟩ ts = .ok s'
        ∧ s'.op_count_in_window ≤ c + ts.length := by
  intro ts
  induction ts with
  | nil =>
    intro l c h
    exact ⟨⟨l, c⟩, rfl, by simp⟩
  | cons t rest ih =>
    intro l c h
    simp only [List.length_cons] at h
    by_cases hw : cfg.window_length < t - l
    · have hstep : abuseStep cfg ⟨l, c⟩ t = .ok ⟨t, 0 + 1⟩ := by
        unfold abuseStep
        dsimp only
        rw [if_pos hw, if_neg (by omega)]
      obtain ⟨s', hs', hc'⟩ := ih t (0 + 1) (by omega)
      refine ⟨s', ?_, by simp only [List.length_cons]; omega⟩
      unfold runAbuse
      rw [hstep]
      exact hs'
    · have hstep : abuseStep cfg ⟨l, c⟩ t = .ok ⟨t, c + 1⟩ := by
        unfold abuseStep
        dsimp only
        rw [if_neg hw, if_neg (by omega)]
      obtain ⟨s', hs', hc'⟩ := ih t (c + 1) (by omega)
      refine ⟨s', ?_, by simp only [List.length_cons]; omega⟩
      unfold runAbuse
      rw [hstep]
      exact hs'

/-- Along operations none of which leaves the window, every operation
succeeds while the count stays within the limit, the count grows by
exactly one per operation, and the last operation's time is stamped. -/
theorem runAbuse_ok_count_exact (cfg : AbuseConfig) :
    ∀ (ts : List Nat) (l c : Nat),
      List.Chain (fun x y => y - x ≤ cfg.window_length) l ts →
      c + ts.length ≤ cfg.max_ops_per_window →
      runAbuse cfg ⟨l, c⟩ ts = .ok ⟨ts.getLastD l, c + ts.length⟩ := by
  intro ts
  induction ts with
  | nil =>
    intro l c _ _
    rfl
  | cons t rest ih =>
    intro l c hchain hle
    obtain ⟨hgap, hchain'⟩ := List.chain_cons.mp hchain
    simp only [List.length_cons] at hle
    have hstep : abuseStep cfg ⟨l, c⟩ t = .ok ⟨t, c + 1⟩ := by
      unfold abuseStep
      dsimp only
      rw [if_neg (show ¬ cfg.window_length < t - l from by omega)]
      rw [if_neg (show ¬ (cfg.max_ops_per_window ≤ c
        ∧ t - l < cfg.cooldown_duration) from by omega)]
    unfold runAbuse
    rw [hstep]
    dsimp only
    rw [ih t (c + 1) hchain' (by omega), List.getLastD_cons,
      List.length_cons,
      show c + (rest.length + 1) = c + 1 + rest.length from by omega]

/-- Running an appended trace continues from the first trace's end state. -/
theorem runAbuse_append_ok (cfg : AbuseConfig) :
    ∀ (l1 : List Nat) (s s' : AbuseState) (l2 : List Nat),
      runAbuse cfg s l1 = .ok s' →
      runAbuse cfg s (l1 ++ l2) = runAbuse cfg s' l2 := by
  intro l1
  induction l1 with
  | nil =>
    intro s s' l2 h
    injection h with h'
    subst h'
    rfl
  | cons t rest ih =>
    intro s s' l2 h
    rw [List.cons_append]
    simp only [runAbuse] at h ⊢
    cases habs : abuseStep cfg s t with
    | ok s₁ =>
      rw [habs] at h
      exact ih s₁ s' l2 h
    | error e =>
      rw [habs] at h
      cases h

/-- C6 (amended): for a non-whitelisted actor with `M = max_ops_per_window`
and `W = window_length`: any `M` operations from a fresh window all
succeed; an `(M+1)`-th operation issued within `W` of the previous one and
before `cooldown_duration` has elapsed fails with `RateLimited`; an
operation with `now − last_op_time > W` succeeds regardless of the prior
count provided `M ≥ 1`; and an operation spaced exactly at the
`window_length` boundary (`now − last_op_time = W`) does **not** see the
window reset — the reset check is strictly greater — so it keeps the
accumulated count and is rate-limited exactly when that count has reached
`M` and `W < cooldown_duration`. -/
theorem check_and_record_rate_limiting (cfg : AbuseConfig) :
    (∀ (t0 : Nat) (ts : List Nat), ts.length = cfg.max_ops_per_window →
      List.Chain (fun x y => y - x ≤ cfg.window_length) t0 ts →
      ∃ s', runAbuse cfg ⟨t0, 0⟩ ts = .ok s')
    ∧ (∀ (t0 : Nat) (ts : List Nat) (t : Nat),
        ts.length = cfg.max_ops_per_window →
        List.Chain (fun x y => y - x ≤ cfg.window_length) t0 ts →
        t - ts.getLastD t0 ≤ cfg.window_length →
        t - ts.getLastD t0 < cfg.cooldown_duration →
        runAbuse cfg ⟨t0, 0⟩ (ts ++ [t]) = .error .RateLimited)
    ∧ (∀ (s : AbuseState) (now : Nat), 1 ≤ cfg.max_ops_per_window →
        cfg.window_length < now - s.last_op_time →
        abuseStep cfg s now = .ok ⟨now, 1⟩)
    ∧ (∀ (s : AbuseState) (now : Nat),
        now - s.last_op_time = cfg.window_length →
        abuseStep cfg s now
          = (if cfg.max_ops_per_window ≤ s.op_count_in_window
                ∧ cfg.window_length < cfg.cooldown_duration
              then .error .RateLimited
              else .ok ⟨now, s.op_count_in_window + 1⟩)) := by
  refine ⟨fun t0 ts hM _ => ?_, fun t0 ts t hM hchain hgap hcd => ?_,
    fun s now hM hgap => ?_, fun s now heq => ?_⟩
  · obtain ⟨s', hs', _⟩ := runAbuse_ok_of_count_le cfg ts t0 0 (by omega)
    exact ⟨s', hs'⟩
  · have hrun := runAbuse_ok_count_exact cfg ts t0 0 hchain (by omega)
    rw [runAbuse_append_ok cfg ts _ _ [t] hrun]
    unfold runAbuse abuseStep
    dsimp only
    rw [if_neg (show ¬ cfg.window_length < t - ts.getLastD t0 from by omega)]
    rw [if_pos (show cfg.max_ops_per_window ≤ 0 + ts.length
      ∧ t - ts.getLastD t0 < cfg.cooldown_duration from ⟨by omega, hcd⟩)]
  · unfold abuseStep
    dsimp only
    rw [if_pos hgap]
    rw [if_neg (show ¬ (cfg.max_ops_per_window ≤ 0
      ∧ now - s.last_op_time < cfg.cooldown_duration) from by omega)]
  · unfold abuseStep
    dsimp only
    rw [if_neg (show ¬ cfg.window_length < now - s.last_op_time from by omega)]
    rw [heq]

/-- C6 counterexample: with `W = 10, M = 1, cooldown = 20`, a fresh actor
operating at times 0 and 10 — spaced exactly at the window boundary — is
rate-limited on the second operation, so the window did not reset there;
and with `M = 0, W = 10, cooldown = 100`, an operation at gap `20 > W` is
rate-limited despite the window having elapsed. -/
theorem check_and_record_rate_limiting_counterexample :
    runAbuse ⟨10, 1, 20⟩ ⟨0, 0⟩ [0, 10] = .error .RateLimited
    ∧ abuseStep ⟨10, 0, 100⟩ ⟨0, 0⟩ 20 = .error .RateLimited :=
  ⟨rfl, rfl⟩

/-- C6 witness: with `W = 10, M = 2, cooldown = 100`, operations at times
1 and 2 from a fresh window succeed, a third at time 3 is rate-limited, an
operation at gap `50 > W` succeeds with the count reset, and an operation
at gap exactly `W` keeps its accumulated count. -/
theorem check_and_record_rate_limiting_witness :
    (∃ s', runAbuse ⟨10, 2, 100⟩ ⟨0, 0⟩ [1, 2] = .ok s')
    ∧ runAbuse ⟨10, 2, 100⟩ ⟨0, 0⟩ ([1, 2] ++ [3]) = .error .RateLimited
    ∧ abuseStep ⟨10, 2, 100⟩ ⟨0, 5⟩ 50 = .ok ⟨50, 1⟩
    ∧ abuseStep ⟨10, 2, 100⟩ ⟨0, 2⟩ 10
        = (if 2 ≤ 2 ∧ 10 < 100 then .error .RateLimited else .ok ⟨10, 3⟩) :=
  ⟨(check_and_record_rate_limiting ⟨10, 2, 100⟩).1 0 [1, 2] rfl
     (.cons (by decide) (.cons (by decide) .nil)),
   (check_and_record_rate_limiting ⟨10, 2, 100⟩).2.1 0 [1, 2] 3 rfl
     (.cons (by decide) (.cons (by decide) .nil)) (by decide) (by decide),
   (check_and_record_rate_limiting ⟨10, 2, 100⟩).2.2.1 ⟨0, 5⟩ 50 (by decide)
     (by decide),
   (check_and_record_rate_limiting ⟨10, 2, 100⟩).2.2.2 ⟨0, 2⟩ 10 (by decide)⟩

end Grainlify
